import Mathlib

/-!
Shallow embedding of the coursework-backend Express/MongoDB server
(src/server.js and its near-duplicate src/unnamed/part_000).

The server keeps two MongoDB collections, `lessons` and `orders`, and
exposes four routes:

* GET  /lessons        : returns every lesson (not needed by any claim);
* POST /orders         : inserts the request body into `orders` verbatim
                         and answers 201;
* PUT  /lessons/:id    : `parseInt` on the `:id` segment, a
                         `typeof spaces !== "number"` check (400), then
                         `updateOne({_id: lessonId}, {$set: {spaces}})`
                         answering 200 on a match and 404 otherwise;
* GET  /search?q=t     : 400 when `q` is missing or empty (falsy), else
                         filters lessons whose `subject` or `location`
                         matches `q` used as a case-insensitive regular
                         expression (`$regex` with option `i`).

The embedding models the database as in-memory lists, the JavaScript
value in `req.body.spaces` as `JsVal` (so the `typeof` check is exact),
JavaScript `parseInt` as `parseIntJS` (whitespace skip, optional sign,
`0x` hexadecimal prefix, longest leading digit run, `none` for NaN), and
MongoDB `$regex` with option `i` as an executable matcher for the
fragment of PCRE in which the pattern is a sequence of literal
characters, `.` wildcards and the escape classes `\d` and `\D`
(`parsePattern` returns `none` outside the fragment). The pattern is
parsed as written: `\d` and `\D` keep their case-dependent meanings.
Option `i` is modelled by ASCII-lowercasing literal pattern characters
at parse time and the subject at match time; the wildcard and the digit
classes are unaffected by lowercasing the subject, since case mapping
never turns a digit into a non-digit or back. Store failures (catch
branches answering 500) are not modelled: the store itself is an
in-memory value that cannot fail.
-/

namespace Backend

/-- A document of the `lessons` collection: integer `_id` (the seed data
keys lessons by small integers), subject, location, price and the number
of available spaces. The routes do no arithmetic on `price` or `spaces`,
so the JavaScript numbers are carried as `Int`. -/
structure Lesson where
  id : Int
  subject : String
  location : String
  price : Int
  spaces : Int
deriving DecidableEq, Repr

/-- One item of an order request body: a lesson id and a quantity. -/
structure OrderItem where
  lessonId : Int
  quantity : Int
deriving DecidableEq, Repr

/-- An order request body as the front end sends it. POST /orders never
inspects any field: the body is inserted verbatim. -/
structure OrderReq where
  customerName : String
  customerPhone : String
  items : List OrderItem
deriving DecidableEq, Repr

/-- The two collections of the `coursework` database. -/
structure DB where
  lessons : List Lesson
  orders : List OrderReq
deriving DecidableEq, Repr

/-- A JavaScript value as found in `req.body.spaces`; `undef` covers a
missing field. `typeof v === "number"` holds exactly for `num`. -/
inductive JsVal where
  | num (n : Int)
  | str (s : String)
  | boolean (b : Bool)
  | nullV
  | undef
deriving DecidableEq, Repr

/-- The `typeof v === "number"` test of the PUT handler. -/
def JsVal.isNumber : JsVal → Bool
  | JsVal.num _ => true
  | _ => false

/-- An HTTP response: status code and body text. The JSON bodies of the
200/201 answers are represented by their message strings. -/
structure Resp where
  status : Nat
  body : String
deriving DecidableEq, Repr

/-- Whitespace skipped by JavaScript `parseInt` (the common ASCII
whitespace characters). -/
def jsSpace (c : Char) : Bool :=
  c == ' ' || c == '\t' || c == '\n' || c == '\r'

/-- Value of a run of decimal digits. -/
def decValue (ds : List Char) : Nat :=
  ds.foldl (fun a c => 10 * a + (c.toNat - 48)) 0

/-- Hexadecimal digit test, as accepted after a `0x` prefix. -/
def isHexDigitJs (c : Char) : Bool :=
  c.isDigit || ('a' ≤ c && c ≤ 'f') || ('A' ≤ c && c ≤ 'F')

/-- Value of one hexadecimal digit. -/
def hexDigitVal (c : Char) : Nat :=
  if c.isDigit then c.toNat - 48
  else if 'a' ≤ c && c ≤ 'f' then c.toNat - 87
  else c.toNat - 55

/-- Value of a run of hexadecimal digits. -/
def hexValue (ds : List Char) : Nat :=
  ds.foldl (fun a c => 16 * a + hexDigitVal c) 0

/-- Applies the optional leading sign. -/
def applySign (neg : Bool) (n : Nat) : Int :=
  if neg then -(n : Int) else (n : Int)

/-- `parseInt` after whitespace and sign have been consumed: a `0x`/`0X`
prefix switches to hexadecimal, otherwise the longest leading run of
decimal digits is taken; an empty run is NaN (`none`). -/
def parseIntNoSign (neg : Bool) (cs : List Char) : Option Int :=
  match cs with
  | '0' :: c :: rest =>
    if c == 'x' || c == 'X' then
      let hs := rest.takeWhile isHexDigitJs
      if hs.isEmpty then none else some (applySign neg (hexValue hs))
    else
      some (applySign neg (decValue (('0' :: c :: rest).takeWhile Char.isDigit)))
  | _ =>
    let ds := cs.takeWhile Char.isDigit
    if ds.isEmpty then none else some (applySign neg (decValue ds))

/-- JavaScript `parseInt(s)` with the radix argument omitted, as used on
the `:id` path segment; `none` models NaN. -/
def parseIntJS (s : String) : Option Int :=
  match s.data.dropWhile jsSpace with
  | '-' :: rest => parseIntNoSign true rest
  | '+' :: rest => parseIntNoSign false rest
  | cs => parseIntNoSign false cs

/-- `updateOne({_id: pid}, {$set: {spaces: n}})` on the lessons list:
updates the first document whose `_id` equals the filter value and
reports the matched count (0 or 1, since `updateOne` updates at most one
document and `_id` is unique in MongoDB). A NaN filter (`pid = none`)
matches no document, because every stored `_id` is an integer. -/
def updateFirst (pid : Option Int) (n : Int) : List Lesson → List Lesson × Nat
  | [] => ([], 0)
  | l :: ls =>
    if some l.id = pid then
      ({ l with spaces := n } :: ls, 1)
    else
      (l :: (updateFirst pid n ls).1, (updateFirst pid n ls).2)

/-- The PUT /lessons/:id handler: `parseInt` the id segment, reject a
non-number `spaces` with 400, run the update, answer 200 on a match and
404 otherwise. -/
def putLesson (idSeg : String) (spacesVal : JsVal) (db : DB) : DB × Resp :=
  let pid := parseIntJS idSeg
  match spacesVal with
  | JsVal.num n =>
    let r := updateFirst pid n db.lessons
    if r.2 > 0 then
      ({ db with lessons := r.1 }, ⟨200, "Lesson spaces updated successfully"⟩)
    else
      ({ db with lessons := r.1 }, ⟨404, "Lesson not found."⟩)
  | _ => (db, ⟨400, "Invalid spaces value provided."⟩)

/-- The POST /orders handler: `insertOne(req.body)` and a 201 answer.
The body is persisted verbatim; no field is read, no lesson is touched.
The `insertedId` of the real answer is assigned by the store and not
modelled. -/
def postOrders (o : OrderReq) (db : DB) : DB × Resp :=
  ({ db with orders := db.orders ++ [o] }, ⟨201, "Order saved successfully"⟩)

/-- One request through the public mutating interface. -/
inductive Op where
  | submitOrder (o : OrderReq)
  | updateSpaces (idSeg : String) (v : JsVal)
deriving DecidableEq, Repr

/-- The database after handling one request. -/
def step (db : DB) : Op → DB
  | Op.submitOrder o => (postOrders o db).1
  | Op.updateSpaces idSeg v => (putLesson idSeg v db).1

/-- The database after handling a sequence of requests. -/
def run (db : DB) (ops : List Op) : DB :=
  ops.foldl step db

/-- ASCII lowercasing of a character list, modelling the `i` option of
the `$regex` operator (and, on the spec side, case-insensitive
comparison). -/
def lowerL (cs : List Char) : List Char :=
  cs.map Char.toLower

/-- A token of the modelled regular-expression fragment: a literal
character, the `.` wildcard, or one of the escape classes `\d` (a
decimal digit) and `\D` (a non-digit). -/
inductive RTok where
  | lit (c : Char)
  | dot
  | digitCls
  | nonDigitCls
deriving DecidableEq, Repr

/-- The PCRE metacharacters other than `.`; a pattern containing one of
these outside a recognised escape is outside the modelled fragment. -/
def metaChars : List Char :=
  ['^', '$', '*', '+', '?', '(', ')', '[', ']', '\x7b', '\x7d', '|', '\\']

/-- Parses a pattern, as written by the client, into tokens: `\d` and
`\D` become the digit classes, `.` the wildcard, any other
non-metacharacter a literal lowered for the `i` option; `none` when the
pattern leaves the modelled fragment. The case of the escape letter is
significant, exactly as in PCRE. -/
def parsePattern : List Char → Option (List RTok)
  | [] => some []
  | '\\' :: 'd' :: rest => (parsePattern rest).map (fun ts => RTok.digitCls :: ts)
  | '\\' :: 'D' :: rest => (parsePattern rest).map (fun ts => RTok.nonDigitCls :: ts)
  | '\\' :: _ => none
  | c :: cs =>
    if c = '.' then (parsePattern cs).map (fun ts => RTok.dot :: ts)
    else if metaChars.contains c then none
    else (parsePattern cs).map (fun ts => RTok.lit c.toLower :: ts)

/-- Whether one token matches one character of the lowered subject. -/
def tokMatch : RTok → Char → Bool
  | RTok.lit c, d => c == d
  | RTok.dot, _ => true
  | RTok.digitCls, d => d.isDigit
  | RTok.nonDigitCls, d => !d.isDigit

/-- Whether the token list matches a prefix of the character list. -/
def matchesAt : List RTok → List Char → Bool
  | [], _ => true
  | _ :: _, [] => false
  | t :: ts, c :: cs => tokMatch t c && matchesAt ts cs

/-- Unanchored regular-expression search: the tokens match at some
position of the character list. -/
def rsearch (ts : List RTok) : List Char → Bool
  | [] => matchesAt ts []
  | c :: cs => matchesAt ts (c :: cs) || rsearch ts cs

/-- `{field: {$regex: pattern, $options: "i"}}` for an already parsed
pattern: unanchored search over the lowercased field value (the parsed
tokens come from the lowercased pattern). -/
def regexFind (toks : List RTok) (subj : String) : Bool :=
  rsearch toks (lowerL subj.data)

/-- Response of the GET /search route: 400 with a message, or 200 with
the matching lessons. -/
inductive SearchResp where
  | badRequest (msg : String)
  | results (ls : List Lesson)
deriving DecidableEq, Repr

/-- HTTP status of a search response. -/
def SearchResp.status : SearchResp → Nat
  | SearchResp.badRequest _ => 400
  | SearchResp.results _ => 200

/-- The GET /search handler: `q = none` models a missing query
parameter; `!query` is true for a missing or empty string, answered with
400; otherwise the lessons whose subject or location matches the
case-insensitive regular expression are returned. The outer `none`
means the pattern is outside the modelled regex fragment. -/
def getSearch (q : Option String) (ls : List Lesson) : Option SearchResp :=
  match q with
  | none => some (SearchResp.badRequest "Search query is missing.")
  | some s =>
    if s = "" then some (SearchResp.badRequest "Search query is missing.")
    else
      (parsePattern s.data).map (fun toks =>
        SearchResp.results (ls.filter (fun l =>
          regexFind toks l.subject || regexFind toks l.location)))

/-- Whether `needle` is a prefix of `hay`. -/
def leadsWith : List Char → List Char → Bool
  | [], _ => true
  | _ :: _, [] => false
  | a :: as, b :: bs => a == b && leadsWith as bs

/-- Whether `needle` occurs as a contiguous run inside `hay`. -/
def occursIn (needle : List Char) : List Char → Bool
  | [] => leadsWith needle []
  | c :: cs => leadsWith needle (c :: cs) || occursIn needle cs

/-- Case-insensitive substring containment of strings. -/
def containsCI (needle hay : String) : Bool :=
  occursIn (lowerL needle.data) (lowerL hay.data)

/-- Modelled from the spec wording (section 4.1): `search(term)` returns
the lessons whose subject or location contains `term` as a
case-insensitive substring. Used to compare the code of GET /search,
which treats `term` as a regular expression, against the spec. -/
def specSearch (t : String) (ls : List Lesson) : List Lesson :=
  ls.filter (fun l => containsCI t l.subject || containsCI t l.location)

/-- A one-lesson catalog used by the concrete counterexamples and
witnesses; its lesson starts with a non-negative number of spaces. -/
def demoDB : DB :=
  ⟨[⟨1, "Math", "RoomA", 10, 2⟩], []⟩

/-- A catalog whose single lesson has exactly one space left. -/
def lastUnitDB : DB :=
  ⟨[⟨1, "Math", "RoomA", 10, 1⟩], []⟩

/-- An order for one unit of lesson 1. -/
def orderA : OrderReq :=
  ⟨"Alice", "111", [⟨1, 1⟩]⟩

/-- A second order for one unit of lesson 1. -/
def orderB : OrderReq :=
  ⟨"Bob", "222", [⟨1, 1⟩]⟩

/-- An order for five units of lesson 1, more than `demoDB` has. -/
def bigOrder : OrderReq :=
  ⟨"Alice", "111", [⟨1, 5⟩]⟩

/-- An order request that violates every validation rule of the spec:
empty items, empty customer name and phone. -/
def invalidOrder : OrderReq :=
  ⟨"", "", []⟩

/-- Handling an order submission leaves the lessons collection
untouched: the POST /orders handler only inserts into `orders`. -/
theorem run_submits_lessons (os : List OrderReq) : ∀ db : DB,
    (run db (os.map Op.submitOrder)).lessons = db.lessons := by
  induction os with
  | nil => intro db; rfl
  | cons o os ih =>
    intro db
    have h := ih (step db (Op.submitOrder o))
    simpa [run, List.foldl, step, postOrders] using h

/-- Claim C1 (counterexample): starting from a catalog satisfying
`spaces ≥ 0`, a single PUT /lessons/1 with body `{spaces: -1}` is
accepted by the code and leaves a lesson with `spaces = -1`, so the
invariant `spaces ≥ 0` does not hold after every sequence of operations
through the public interface. -/
theorem C1_counterexample :
    (demoDB.lessons.all (fun l => decide (0 ≤ l.spaces))) = true ∧
    ((run demoDB [Op.updateSpaces "1" (JsVal.num (-1))]).lessons.all
      (fun l => decide (0 ≤ l.spaces))) = false := by
  decide

/-- Claim C1 (amended): order submissions never change any lesson, so
`spaces ≥ 0` is preserved by every sequence of order submissions; lesson
updates, however, write the supplied number unchecked and can make
`spaces` negative. -/
theorem C1_submits_preserve_nonneg (db : DB) (os : List OrderReq) :
    (run db (os.map Op.submitOrder)).lessons = db.lessons ∧
    ((∀ l ∈ db.lessons, 0 ≤ l.spaces) →
      ∀ l ∈ (run db (os.map Op.submitOrder)).lessons, 0 ≤ l.spaces) := by
  refine ⟨run_submits_lessons os db, ?_⟩
  intro h l hl
  rw [run_submits_lessons os db] at hl
  exact h l hl

/-- Claim C1 (witness): the amended theorem applied to the concrete
catalog `demoDB` and one concrete order. -/
theorem C1_submits_preserve_nonneg_witness :
    (∀ l ∈ demoDB.lessons, 0 ≤ l.spaces) ∧
    (∀ l ∈ (run demoDB ([orderA].map Op.submitOrder)).lessons, 0 ≤ l.spaces) :=
  ⟨by decide, (C1_submits_preserve_nonneg demoDB [orderA]).2 (by decide)⟩

/-- Claim C2 (counterexample): `bigOrder` asks for 5 units of lesson 1
while `demoDB` has 2 spaces, yet the code answers 201 and persists the
order instead of failing with InsufficientStock and not persisting it.
The lessons are left unchanged, but not because of any stock check. -/
theorem C2_counterexample :
    (postOrders bigOrder demoDB).2.status = 201 ∧
    (postOrders bigOrder demoDB).1.orders = [bigOrder] ∧
    (postOrders bigOrder demoDB).1.lessons = demoDB.lessons := by
  decide

/-- Claim C2 (amended): the POST /orders handler performs no stock
check at all: every submission, including one whose quantity exceeds the
available spaces, is answered 201, appended to the orders collection,
and leaves the spaces of every lesson unchanged. -/
theorem C2_orders_always_persist (o : OrderReq) (db : DB) :
    (postOrders o db).2.status = 201 ∧
    (postOrders o db).1.orders = db.orders ++ [o] ∧
    (postOrders o db).1.lessons = db.lessons :=
  ⟨rfl, rfl, rfl⟩

/-- Claim C3 (counterexample): `invalidOrder` has empty items and an
empty customer name, yet the code answers 201 and persists it instead
of failing with a ValidationError. -/
theorem C3_counterexample :
    (invalidOrder.items = [] ∧ invalidOrder.customerName = "") ∧
    (postOrders invalidOrder demoDB).2.status = 201 ∧
    (postOrders invalidOrder demoDB).1.orders = [invalidOrder] := by
  decide

/-- Claim C3 (amended): the POST /orders handler performs no
validation: an order with empty items, empty customer name or phone, or
a non-positive quantity is persisted verbatim and answered 201. -/
theorem C3_no_validation (o : OrderReq) (db : DB)
    (_h : o.items = [] ∨ o.customerName = "" ∨ o.customerPhone = "" ∨
      ∃ it ∈ o.items, it.quantity ≤ 0) :
    (postOrders o db).2.status = 201 ∧
    (postOrders o db).1.orders = db.orders ++ [o] :=
  ⟨rfl, rfl⟩

/-- Claim C3 (witness): the amended theorem applied to the concrete
invalid order. -/
theorem C3_no_validation_witness :
    invalidOrder.items = [] ∧
    ((postOrders invalidOrder demoDB).2.status = 201 ∧
      (postOrders invalidOrder demoDB).1.orders = demoDB.orders ++ [invalidOrder]) :=
  ⟨rfl, C3_no_validation invalidOrder demoDB (Or.inl rfl)⟩

/-- Claim C9 (counterexample): with one space left in `lastUnitDB`, two
submissions each requesting that last unit are both answered 201 and
both persisted, and the stock is never decremented: it is false that
exactly one succeeds. The sequential interleaving shown is one of the
possible concurrent executions, so concurrent reservations can both
succeed. -/
theorem C9_counterexample :
    lastUnitDB.lessons = [⟨1, "Math", "RoomA", 10, 1⟩] ∧
    (postOrders orderA lastUnitDB).2.status = 201 ∧
    (postOrders orderB (postOrders orderA lastUnitDB).1).2.status = 201 ∧
    (postOrders orderB (postOrders orderA lastUnitDB).1).1.orders = [orderA, orderB] ∧
    (postOrders orderB (postOrders orderA lastUnitDB).1).1.lessons = lastUnitDB.lessons := by
  decide

/-- Claim C9 (amended): the code has no reservation step, so any two
order submissions both succeed with 201 under any interleaving: each
handler only appends its order document and never reads or writes
lesson stock, and no InsufficientStock outcome exists. -/
theorem C9_both_submissions_succeed (db : DB) (o1 o2 : OrderReq) :
    (postOrders o1 db).2.status = 201 ∧
    (postOrders o2 (postOrders o1 db).1).2.status = 201 ∧
    (postOrders o2 (postOrders o1 db).1).1.orders = db.orders ++ [o1, o2] ∧
    (postOrders o2 (postOrders o1 db).1).1.lessons = db.lessons := by
  refine ⟨rfl, rfl, ?_, rfl⟩
  simp [postOrders]

/-- A NaN filter value matches no lesson: the update returns the list
unchanged with matched count 0. -/
theorem updateFirst_none (n : Int) : ∀ ls : List Lesson,
    updateFirst none n ls = (ls, 0) := by
  intro ls
  induction ls with
  | nil => rfl
  | cons l ls ih => simp [updateFirst, ih]

/-- When some lesson carries the filtered id, the matched count is
positive. -/
theorem updateFirst_matched_pos (pid : Option Int) (n : Int) :
    ∀ ls : List Lesson, (∃ l ∈ ls, some l.id = pid) →
      0 < (updateFirst pid n ls).2 := by
  intro ls
  induction ls with
  | nil => rintro ⟨l, hl, _⟩; cases hl
  | cons l ls ih =>
    rintro ⟨m, hm, hid⟩
    by_cases h : some l.id = pid
    · simp [updateFirst, h]
    · rcases List.mem_cons.mp hm with rfl | hm2
      · exact absurd hid h
      · simpa [updateFirst, h] using ih ⟨m, hm2, hid⟩

/-- When no lesson carries the filtered id, the update returns the list
unchanged with matched count 0. -/
theorem updateFirst_unmatched (pid : Option Int) (n : Int) :
    ∀ ls : List Lesson, (∀ l ∈ ls, ¬ some l.id = pid) →
      updateFirst pid n ls = (ls, 0) := by
  intro ls
  induction ls with
  | nil => intro _; rfl
  | cons l ls ih =>
    intro h
    have hl : ¬ some l.id = pid := h l (by simp)
    have ht := ih (fun m hm => h m (by simp [hm]))
    simp [updateFirst, hl, ht]

/-- The state produced by a PUT with a numeric body: in both the 200 and
the 404 branch the lessons list is the result of the update and the
orders are untouched. -/
theorem putLesson_num_fst (idSeg : String) (n : Int) (db : DB) :
    (putLesson idSeg (JsVal.num n) db).1 =
      { db with lessons := (updateFirst (parseIntJS idSeg) n db.lessons).1 } := by
  by_cases h : 0 < (updateFirst (parseIntJS idSeg) n db.lessons).2
  · simp [putLesson, h]
  · simp [putLesson, h]

/-- Claim C4: the PUT /lessons/:id handler answers 400 when the body
field spaces is not a number, 200 with the success message when it is a
number and some lesson carries the parsed id, and 404 when it is a
number and no lesson does. -/
theorem C4_put_statuses (idSeg : String) (v : JsVal) (db : DB) :
    (v.isNumber = false →
      (putLesson idSeg v db).2 = ⟨400, "Invalid spaces value provided."⟩) ∧
    ((v.isNumber = true ∧ ∃ l ∈ db.lessons, some l.id = parseIntJS idSeg) →
      (putLesson idSeg v db).2 = ⟨200, "Lesson spaces updated successfully"⟩) ∧
    ((v.isNumber = true ∧ ∀ l ∈ db.lessons, ¬ some l.id = parseIntJS idSeg) →
      (putLesson idSeg v db).2 = ⟨404, "Lesson not found."⟩) := by
  refine ⟨?_, ?_, ?_⟩
  · intro hnum
    cases v with
    | num n => simp [JsVal.isNumber] at hnum
    | str s => rfl
    | boolean b => rfl
    | nullV => rfl
    | undef => rfl
  · rintro ⟨hnum, hex⟩
    cases v with
    | num n =>
      have hpos := updateFirst_matched_pos (parseIntJS idSeg) n db.lessons hex
      simp [putLesson, hpos]
    | str s => simp [JsVal.isNumber] at hnum
    | boolean b => simp [JsVal.isNumber] at hnum
    | nullV => simp [JsVal.isNumber] at hnum
    | undef => simp [JsVal.isNumber] at hnum
  · rintro ⟨hnum, hall⟩
    cases v with
    | num n =>
      have hz := updateFirst_unmatched (parseIntJS idSeg) n db.lessons hall
      simp [putLesson, hz]
    | str s => simp [JsVal.isNumber] at hnum
    | boolean b => simp [JsVal.isNumber] at hnum
    | nullV => simp [JsVal.isNumber] at hnum
    | undef => simp [JsVal.isNumber] at hnum

/-- Claim C4 (witness): the three branches of the claim at concrete
requests against the concrete catalog `demoDB`. -/
theorem C4_put_statuses_witness :
    ((JsVal.str "x").isNumber = false ∧
      (putLesson "1" (JsVal.str "x") demoDB).2 = ⟨400, "Invalid spaces value provided."⟩) ∧
    (((JsVal.num 3).isNumber = true ∧ ∃ l ∈ demoDB.lessons, some l.id = parseIntJS "1") ∧
      (putLesson "1" (JsVal.num 3) demoDB).2 = ⟨200, "Lesson spaces updated successfully"⟩) ∧
    (((JsVal.num 3).isNumber = true ∧ ∀ l ∈ demoDB.lessons, ¬ some l.id = parseIntJS "9") ∧
      (putLesson "9" (JsVal.num 3) demoDB).2 = ⟨404, "Lesson not found."⟩) :=
  ⟨⟨rfl, (C4_put_statuses "1" (JsVal.str "x") demoDB).1 rfl⟩,
   ⟨by decide, (C4_put_statuses "1" (JsVal.num 3) demoDB).2.1 (by decide)⟩,
   ⟨by decide, (C4_put_statuses "9" (JsVal.num 3) demoDB).2.2 (by decide)⟩⟩

/-- The pointwise frame relation of a PUT: ids and immutable fields are
preserved, and a lesson is either untouched or is the matched one with
only spaces rewritten. -/
theorem updateFirst_frame (pid : Option Int) (n : Int) : ∀ ls : List Lesson,
    List.Forall₂ (fun old new =>
      new.id = old.id ∧ new.subject = old.subject ∧ new.location = old.location ∧
      new.price = old.price ∧
      (new = old ∨ (some old.id = pid ∧ new.spaces = n)))
      ls (updateFirst pid n ls).1 := by
  intro ls
  induction ls with
  | nil => exact List.Forall₂.nil
  | cons l ls ih =>
    by_cases h : some l.id = pid
    · simp only [updateFirst, h, if_pos]
      refine List.Forall₂.cons ⟨rfl, rfl, rfl, rfl, Or.inr ⟨h, rfl⟩⟩ ?_
      exact (List.forall₂_same).2 (fun x _ => ⟨rfl, rfl, rfl, rfl, Or.inl rfl⟩)
    · simp only [updateFirst, h, if_neg, not_false_iff]
      exact List.Forall₂.cons ⟨rfl, rfl, rfl, rfl, Or.inl rfl⟩ ih

/-- Claim C8: spaces is the only mutable lesson field. After a
successful PUT the orders are unchanged and every lesson corresponds
pointwise to the old list with id, subject, location and price
preserved; a lesson is either entirely unchanged or is the matched one
(its id equals the parsed path id) with spaces set to the new value, so
every lesson with a different id is entirely unchanged. -/
theorem C8_put_frame (idSeg : String) (n : Int) (db : DB)
    (_hs : (putLesson idSeg (JsVal.num n) db).2.status = 200) :
    (putLesson idSeg (JsVal.num n) db).1.orders = db.orders ∧
    List.Forall₂ (fun old new =>
      new.id = old.id ∧ new.subject = old.subject ∧ new.location = old.location ∧
      new.price = old.price ∧
      (new = old ∨ (some old.id = parseIntJS idSeg ∧ new.spaces = n)))
      db.lessons (putLesson idSeg (JsVal.num n) db).1.lessons := by
  rw [putLesson_num_fst]
  exact ⟨rfl, updateFirst_frame (parseIntJS idSeg) n db.lessons⟩

/-- Claim C8 (witness): the frame theorem at a concrete successful PUT
against the concrete catalog `demoDB`. -/
theorem C8_put_frame_witness :
    (putLesson "1" (JsVal.num 3) demoDB).2.status = 200 ∧
    ((putLesson "1" (JsVal.num 3) demoDB).1.orders = demoDB.orders ∧
      List.Forall₂ (fun old new =>
        new.id = old.id ∧ new.subject = old.subject ∧ new.location = old.location ∧
        new.price = old.price ∧
        (new = old ∨ (some old.id = parseIntJS "1" ∧ new.spaces = 3)))
        demoDB.lessons (putLesson "1" (JsVal.num 3) demoDB).1.lessons) :=
  ⟨by decide, C8_put_frame "1" 3 demoDB (by decide)⟩

/-- Claim C10: when the :id path segment does not parse as an integer
(parseInt yields NaN) and the body spaces is a number, the PUT handler
answers exactly 404 (never 400 or 500) and leaves the database
unchanged, because the NaN filter matches no stored integer id. -/
theorem C10_nan_id_put (idSeg : String) (n : Int) (db : DB)
    (h : parseIntJS idSeg = none) :
    putLesson idSeg (JsVal.num n) db = (db, ⟨404, "Lesson not found."⟩) := by
  cases db with
  | mk lessons orders => simp [putLesson, h, updateFirst_none]

/-- Claim C10 (witness): the theorem at the concrete non-numeric id
segment "abc". -/
theorem C10_nan_id_put_witness :
    parseIntJS "abc" = none ∧
    putLesson "abc" (JsVal.num 5) demoDB = (demoDB, ⟨404, "Lesson not found."⟩) :=
  ⟨by decide, C10_nan_id_put "abc" 5 demoDB (by decide)⟩

/-- Builds a character with a valid code point and reads its code back. -/
theorem toNat_ofNat_valid (n : Nat) (h : n.isValidChar) :
    (Char.ofNat n).toNat = n := by
  rw [Char.ofNat, dif_pos h]
  rfl

/-- Lowercasing maps uppercase letters into the lowercase letters, so
the only character whose lowercasing is the dot is the dot itself. -/
theorem toLower_eq_dot {c : Char} (h : c.toLower = '.') : c = '.' := by
  by_cases hr : c.toNat ≥ 65 ∧ c.toNat ≤ 90
  · exfalso
    have hl : c.toLower = Char.ofNat (c.toNat + 32) := by
      unfold Char.toLower
      rw [if_pos hr]
    rw [hl] at h
    have hv : (c.toNat + 32).isValidChar := Or.inl (by omega)
    have h1 : (Char.ofNat (c.toNat + 32)).toNat = c.toNat + 32 := toNat_ofNat_valid _ hv
    rw [h] at h1
    have h2 : ('.' : Char).toNat = 46 := by decide
    omega
  · have hl : c.toLower = c := by
      unfold Char.toLower
      rw [if_neg hr]
    rw [← hl]
    exact h

/-- Every metacharacter is case-stable: none is an uppercase letter. -/
theorem metaChars_toLower_self : ∀ c ∈ metaChars, Char.toLower c = c := by
  decide

/-- A pattern of literal characters only (no `.`, no metacharacter)
parses to the corresponding lowered literal tokens. -/
theorem parsePattern_lits : ∀ cs : List Char,
    (∀ c ∈ cs, c ≠ '.' ∧ metaChars.contains c = false) →
    parsePattern cs = some (cs.map (fun c => RTok.lit c.toLower)) := by
  intro cs
  induction cs with
  | nil => intro _; rfl
  | cons c cs ih =>
    intro h
    have hc := h c (by simp)
    have hc2 : c ∉ metaChars := by simpa using hc.2
    have hbs : ¬ c = '\\' := by
      intro hcc
      subst hcc
      exact hc2 (by decide)
    have ht := ih (fun d hd => h d (by simp [hd]))
    simp [parsePattern, hbs, hc.1, hc2, ht]

/-- The tokens of a pattern inside the literal-and-dot fragment, as a
function of the lowered pattern alone. -/
def litDotToks (cs : List Char) : List RTok :=
  cs.map (fun c => if c = '.' then RTok.dot else RTok.lit c)

/-- Inside the literal-and-dot fragment (no metacharacter in the
lowered pattern) the parse result depends only on the lowered pattern. -/
theorem parsePattern_litdot : ∀ cs : List Char,
    (∀ c ∈ lowerL cs, metaChars.contains c = false) →
    parsePattern cs = some (litDotToks (lowerL cs)) := by
  intro cs
  induction cs with
  | nil => intro _; rfl
  | cons c cs ih =>
    intro h
    have hcons : lowerL (c :: cs) = c.toLower :: lowerL cs := rfl
    have hc : metaChars.contains c.toLower = false := by
      apply h
      rw [hcons]
      exact List.mem_cons_self _ _
    have ht := ih (fun d hd => h d (by rw [hcons]; exact List.mem_cons_of_mem _ hd))
    have hcm : c.toLower ∉ metaChars := by simpa using hc
    have hbs : ¬ c = '\\' := by
      intro hcc
      subst hcc
      exact hcm (by decide)
    by_cases hdot : c = '.'
    · subst hdot
      have e1 : parsePattern ('.' :: cs) =
          (parsePattern cs).map (fun ts => RTok.dot :: ts) := by
        simp [parsePattern]
      have e2 : litDotToks (lowerL ('.' :: cs)) = RTok.dot :: litDotToks (lowerL cs) := rfl
      rw [e1, e2, ht]
      rfl
    · have hmem : ¬ c ∈ metaChars := by
        intro hmem
        apply hcm
        rw [metaChars_toLower_self c hmem]
        exact hmem
      have e1 : parsePattern (c :: cs) =
          (parsePattern cs).map (fun ts => RTok.lit c.toLower :: ts) := by
        simp [parsePattern, hbs, hdot, hmem]
      have e2 : litDotToks (lowerL (c :: cs)) =
          RTok.lit c.toLower :: litDotToks (lowerL cs) := by
        rw [hcons]
        simp only [litDotToks, List.map]
        rw [if_neg (fun hl => hdot (toLower_eq_dot hl))]
      rw [e1, e2, ht]
      rfl

/-- A literal token list matches a prefix exactly when the characters
are a prefix. -/
theorem matchesAt_lits : ∀ ns hay : List Char,
    matchesAt (ns.map RTok.lit) hay = leadsWith ns hay := by
  intro ns
  induction ns with
  | nil => intro hay; rfl
  | cons a as ih =>
    intro hay
    cases hay with
    | nil => rfl
    | cons b bs => simp [matchesAt, leadsWith, tokMatch, ih]

/-- Unanchored search with a literal token list is substring
containment. -/
theorem rsearch_lits (ns : List Char) : ∀ hay : List Char,
    rsearch (ns.map RTok.lit) hay = occursIn ns hay := by
  intro hay
  induction hay with
  | nil => simp [rsearch, occursIn, matchesAt_lits]
  | cons c cs ih => simp [rsearch, occursIn, matchesAt_lits, ih]

/-- Claim C5 (counterexample): the search term is used as a regular
expression, not as a literal substring. For the term "." the code
returns the whole one-lesson catalog (the wildcard matches any
character of "Math"), while the set of lessons whose subject or
location contains "." as a case-insensitive substring is empty. -/
theorem C5_counterexample :
    getSearch (some ".") demoDB.lessons = some (SearchResp.results demoDB.lessons) ∧
    specSearch "." demoDB.lessons = [] := by
  decide

/-- Claim C5 (amended): for every non-empty term none of whose
characters (after lowercasing) is the wildcard `.` or another regex
metacharacter, the search returns exactly the lessons whose subject or
location contains the term as a case-insensitive substring. -/
theorem C5_literal_search_is_substring (t : String) (ls : List Lesson)
    (hne : t ≠ "")
    (hlit : ∀ c ∈ lowerL t.data, c ≠ '.' ∧ metaChars.contains c = false) :
    getSearch (some t) ls = some (SearchResp.results (specSearch t ls)) := by
  have horig : ∀ c ∈ t.data, c ≠ '.' ∧ metaChars.contains c = false := by
    intro c hcmem
    have hmm : c.toLower ∈ lowerL t.data := by
      simp only [lowerL, List.mem_map]
      exact ⟨c, hcmem, rfl⟩
    have hlc := hlit c.toLower hmm
    constructor
    · intro hdot
      subst hdot
      exact hlc.1 (by decide)
    · by_contra hct
      have hctt : c ∈ metaChars := by
        have hb : metaChars.contains c = true := by
          cases hb2 : metaChars.contains c
          · exact absurd hb2 hct
          · rfl
        simpa using hb
      have hst := metaChars_toLower_self c hctt
      rw [hst] at hlc
      exact hct hlc.2
  have hp0 := parsePattern_lits t.data horig
  have hmap : t.data.map (fun c => RTok.lit c.toLower) = (lowerL t.data).map RTok.lit := by
    unfold lowerL
    rw [List.map_map]
    rfl
  have hp : parsePattern t.data = some ((lowerL t.data).map RTok.lit) := by
    rw [hp0, hmap]
  have hf : (fun l : Lesson =>
      regexFind ((lowerL t.data).map RTok.lit) l.subject ||
        regexFind ((lowerL t.data).map RTok.lit) l.location) =
      (fun l : Lesson => containsCI t l.subject || containsCI t l.location) := by
    funext l
    simp [regexFind, containsCI, rsearch_lits]
  simp only [getSearch]
  rw [if_neg hne, hp]
  simp only [Option.map_some']
  rw [hf]
  rfl

/-- Claim C5 (witness): the amended theorem at the concrete literal
term "math" against the concrete catalog `demoDB`. -/
theorem C5_literal_search_is_substring_witness :
    ("math" ≠ "" ∧ ∀ c ∈ lowerL "math".data, c ≠ '.' ∧ metaChars.contains c = false) ∧
    getSearch (some "math") demoDB.lessons =
      some (SearchResp.results (specSearch "math" demoDB.lessons)) :=
  ⟨⟨by decide, by decide⟩,
   C5_literal_search_is_substring "math" demoDB.lessons (by decide) (by decide)⟩

/-- Claim C6: a missing or empty search term is answered 400 with the
missing-query message, and a non-empty term (inside the modelled regex
fragment) that matches no lesson is answered 200 with the empty list,
not with an error. -/
theorem C6_empty_term_and_no_match (ls : List Lesson) (t : String) (toks : List RTok)
    (hne : t ≠ "") (hp : parsePattern t.data = some toks)
    (hnm : ∀ l ∈ ls, regexFind toks l.subject = false ∧ regexFind toks l.location = false) :
    getSearch none ls = some (SearchResp.badRequest "Search query is missing.") ∧
    getSearch (some "") ls = some (SearchResp.badRequest "Search query is missing.") ∧
    (SearchResp.badRequest "Search query is missing.").status = 400 ∧
    getSearch (some t) ls = some (SearchResp.results []) ∧
    (SearchResp.results []).status = 200 := by
  refine ⟨rfl, rfl, rfl, ?_, rfl⟩
  have hz : ls.filter (fun l => regexFind toks l.subject || regexFind toks l.location) = [] := by
    rw [List.filter_eq_nil_iff]
    intro l hl
    simp [(hnm l hl).1, (hnm l hl).2]
  simp only [getSearch]
  rw [if_neg hne, hp]
  simp only [Option.map_some']
  rw [hz]

/-- Claim C6 (witness): the theorem at the concrete no-match term "zzz"
against the concrete catalog `demoDB`. -/
theorem C6_empty_term_and_no_match_witness :
    ("zzz" ≠ "" ∧
      parsePattern "zzz".data = some [RTok.lit 'z', RTok.lit 'z', RTok.lit 'z'] ∧
      ∀ l ∈ demoDB.lessons,
        regexFind [RTok.lit 'z', RTok.lit 'z', RTok.lit 'z'] l.subject = false ∧
        regexFind [RTok.lit 'z', RTok.lit 'z', RTok.lit 'z'] l.location = false) ∧
    getSearch (some "") demoDB.lessons =
      some (SearchResp.badRequest "Search query is missing.") ∧
    getSearch (some "zzz") demoDB.lessons = some (SearchResp.results []) :=
  ⟨⟨by decide, by decide, by decide⟩,
   (C6_empty_term_and_no_match demoDB.lessons "zzz"
      [RTok.lit 'z', RTok.lit 'z', RTok.lit 'z'] (by decide) (by decide) (by decide)).2.1,
   (C6_empty_term_and_no_match demoDB.lessons "zzz"
      [RTok.lit 'z', RTok.lit 'z', RTok.lit 'z'] (by decide) (by decide) (by decide)).2.2.2.1⟩

/-- Claim C7 (counterexample): search results are not invariant under
changing the letter case of the term in general. The terms of the
pattern language are regular expressions and option `i` does not equate
escape classes: on the catalog `demoDB` (subject "Math", no digits) the
term composed of backslash and lowercase d (the digit class) matches
nothing, while the same term with the letter in upper case (the
non-digit class) matches the lesson, although the two terms differ only
in the case of one letter. -/
theorem C7_counterexample :
    lowerL "\\d".data = lowerL "\\D".data ∧
    getSearch (some "\\d") demoDB.lessons = some (SearchResp.results []) ∧
    getSearch (some "\\D") demoDB.lessons = some (SearchResp.results demoDB.lessons) := by
  decide

/-- Claim C7 (amended): for terms built only of ordinary characters and
the dot wildcard (no metacharacter, in particular no backslash escape,
in the lowered term) the search result is invariant under changing the
letter case of the term: two such terms with the same ASCII lowercasing
produce the same response on every catalog. In particular search(MATH)
and search(math) return identical result sets. For escape classes the
case of the letter changes the meaning, so full generality fails. -/
theorem C7_case_invariance_literal_terms (t1 t2 : String) (ls : List Lesson)
    (h : lowerL t1.data = lowerL t2.data)
    (hmeta : ∀ c ∈ lowerL t1.data, metaChars.contains c = false) :
    getSearch (some t1) ls = getSearch (some t2) ls := by
  have hnil : ∀ cs : List Char, lowerL cs = [] ↔ cs = [] := by
    intro cs
    cases cs <;> simp [lowerL]
  have hd : t1.data = [] ↔ t2.data = [] := by
    constructor
    · intro h1
      have h2 := h
      rw [h1] at h2
      exact (hnil t2.data).mp h2.symm
    · intro h1
      have h2 := h
      rw [h1] at h2
      exact (hnil t1.data).mp h2
  by_cases h1 : t1 = ""
  · have h2 : t2 = "" := by
      apply String.ext
      have hx : t1.data = [] := by rw [h1]
      exact hd.mp hx
    rw [h1, h2]
  · have h2 : ¬ t2 = "" := by
      intro he
      apply h1
      apply String.ext
      have hx : t2.data = [] := by rw [he]
      exact hd.mpr hx
    have hm2 : ∀ c ∈ lowerL t2.data, metaChars.contains c = false := by
      rw [← h]
      exact hmeta
    have hp1 := parsePattern_litdot t1.data hmeta
    have hp2 := parsePattern_litdot t2.data hm2
    simp only [getSearch]
    rw [if_neg h1, if_neg h2, hp1, hp2, h]

/-- Claim C7 (witness): the amended theorem applied to the concrete
terms "MATH" and "math" against the concrete catalog `demoDB`, the
instance named by the spec. -/
theorem C7_case_invariance_literal_terms_witness :
    (lowerL "MATH".data = lowerL "math".data ∧
      ∀ c ∈ lowerL "MATH".data, metaChars.contains c = false) ∧
    getSearch (some "MATH") demoDB.lessons = getSearch (some "math") demoDB.lessons :=
  ⟨⟨by decide, by decide⟩,
   C7_case_invariance_literal_terms "MATH" "math" demoDB.lessons (by decide) (by decide)⟩

end Backend
